import Mathlib

/-!
Shallow embedding of the Ax preview API `Client` (ax/preview/api/client.py):
the trial status state machine, metric resolution (`_overwrite_metric`),
data attachment (`attach_data`), completion evaluation (`complete_trial`),
manual status marking, trial generation bookkeeping (`get_next_trials`),
baseline attachment, early stopping, and experiment configuration.

Core-Ax operations that the client calls but whose code is not among the
sources (status transitions of `Trial`, `Experiment.attach_trial`,
`update_trial_data`, `lookup_data`, pending-observation computation) are
modelled from the specification; each such definition says so in its doc
comment.  Machine-irrelevant payloads (parameter and outcome values, metric
implementations) are abstracted to integers and tags; the control flow is
translated faithfully.
-/

namespace Ax

/-- The trial status state machine of `ax.core.base_trial.TrialStatus`, as
used by the client: `CANDIDATE → RUNNING → {COMPLETED, FAILED, ABANDONED,
EARLY_STOPPED}`. -/
inductive TrialStatus where
  | CANDIDATE
  | RUNNING
  | COMPLETED
  | FAILED
  | ABANDONED
  | EARLY_STOPPED
deriving DecidableEq, Repr

/-- The four outcome statuses are terminal; no transition leaves them. -/
def TrialStatus.isTerminal : TrialStatus → Bool
  | .COMPLETED => true
  | .FAILED => true
  | .ABANDONED => true
  | .EARLY_STOPPED => true
  | .CANDIDATE => false
  | .RUNNING => false

/-- A metric as the client sees it: a name plus an opaque implementation tag
standing for the fetch logic of an `ax.core.metric.Metric` subclass (two
metrics with equal names but different logic differ in `impl`). -/
structure Metric where
  name : String
  impl : Nat
deriving DecidableEq, Repr

/-- One sub-objective of a multi-objective: its metric and its direction. -/
structure SubObjective where
  metric : Metric
  minimize : Bool
deriving DecidableEq, Repr

/-- The three optimization-objective variants.  Scalarization weights and
the directions not read by any embedded operation are omitted. -/
inductive Objective where
  | single (metric : Metric)
  | scalarized (metrics : List Metric)
  | multi (objectives : List SubObjective)
deriving DecidableEq, Repr

/-- An outcome constraint: a metric slot plus the threshold data the
resolver never reads or writes. -/
structure OutcomeConstraint where
  metric : Metric
  bound : Int
  relative : Bool
deriving DecidableEq, Repr

/-- An optimization config: the objective and the outcome constraints in
declaration order. -/
structure OptimizationConfig where
  objective : Objective
  outcome_constraints : List OutcomeConstraint
deriving DecidableEq, Repr

/-- A parameterization: parameter name to value; values are abstracted as
integers, their concrete type being irrelevant to the embedded control
flow. -/
abbrev Parameterization := List (String × Int)

/-- An outcome (`TOutcome`): metric name to observed value, values
abstracted as integers. -/
abbrev Outcome := List (String × Int)

/-- An arm: the named parameterization payload of a single-arm trial. -/
structure Arm where
  name : String
  parameters : Parameterization
deriving DecidableEq, Repr

/-- A single-arm trial: its arm, its status, and its accumulated
observation record, a sequence of (progression step, outcome) entries where
`none` is the "no progression" sentinel (`step=NaN` in the source). -/
structure Trial where
  arm : Arm
  status : TrialStatus
  data : List (Option Int × Outcome)
deriving DecidableEq, Repr

/-- The experiment: the optimization config, the tracking metrics (a
name-keyed mapping in the source, rendered as a list of metrics whose names
are unique by construction), the trial collection keyed by position (indices
are assigned monotonically from 0 and trials are never deleted), and the
designated status-quo arm. -/
structure Experiment where
  optimization_config : Option OptimizationConfig
  tracking_metrics : List Metric
  trials : List Trial
  status_quo : Option Arm
deriving DecidableEq, Repr

/-- The candidate-generation strategy, opaque to the orchestrator: given the
pending observation features, the optional fixed parameters, and the
requested trial count, it returns candidate parameterizations (one arm
each).  This is the shape of
`gen_for_multiple_trials_with_multiple_models` as the client invokes it. -/
def GenerationStrategy : Type :=
  List Parameterization → Option Parameterization → Nat → List Parameterization

/-- The early-stopping strategy, opaque to the client: given trial indices
and the experiment, it returns the subset recommended for early stopping
(the shape of `should_stop_trials_early`). -/
def EarlyStoppingStrategy : Type :=
  List Nat → Experiment → List Nat

/-- The mutable state of a `Client`: `_experiment`,
`_generation_strategy`, `_early_stopping_strategy`. -/
structure ClientState where
  experiment : Option Experiment
  generation_strategy : Option GenerationStrategy
  early_stopping_strategy : Option EarlyStoppingStrategy

/-- The errors the embedded operations surface: `_none_throws_experiment`
failure, `UnsupportedError`, the spec's `NotFoundError` for a missing trial
index, and an invalid status transition. -/
inductive AxError where
  | experimentNotSet
  | unsupportedError
  | notFoundError
  | invalidStatusTransition
deriving DecidableEq, Repr

/-! ### Metric resolution (`Client._overwrite_metric`) -/

/-- One in-order scan of a list of metric slots, as the loops
`for i in range(len(...))` of `_overwrite_metric`: replace the metric slot
of the first element whose slot name equals `m.name`; `none` when no slot
matches.  `getM` reads a slot's metric and `setM` writes it. -/
def replaceFirstSlot {α : Type} (getM : α → Metric) (setM : α → Metric → α)
    (l : List α) (m : Metric) : Option (List α) :=
  match l with
  | [] => none
  | x :: xs =>
    if (getM x).name = m.name then some (setM x m :: xs)
    else (replaceFirstSlot getM setM xs m).map (fun l2 => x :: l2)

/-- `replaceFirstSlot` specialized to bare metric lists. -/
def replaceFirstMetric (l : List Metric) (m : Metric) : Option (List Metric) :=
  replaceFirstSlot id (fun _ m2 => m2) l m

/-- The scan of the optimization config by `_overwrite_metric`: the
objective slots by variant, then the outcome constraints in declaration
order; `some cfg2` exactly when a slot matched by name and was substituted.
The third Python branch tests `isinstance(objective, Objective)`, which every
variant satisfies; the `.metric` it then reads is defined only for the
single variant (core Ax, outside the sources, raises on the others), and the
spec orders branch (3) as "if Single and names match" — the embedding
follows the spec there. -/
def OptimizationConfig.substituteMetric (cfg : OptimizationConfig)
    (m : Metric) : Option OptimizationConfig :=
  let afterObjective : Option Objective :=
    match cfg.objective with
    | .multi objs =>
      (replaceFirstSlot SubObjective.metric
        (fun o m2 => { o with metric := m2 }) objs m).map Objective.multi
    | .scalarized ms =>
      (replaceFirstMetric ms m).map Objective.scalarized
    | .single m0 =>
      if m0.name = m.name then some (Objective.single m) else none
  match afterObjective with
  | some obj => some { cfg with objective := obj }
  | none =>
    (replaceFirstSlot OutcomeConstraint.metric
      (fun c m2 => { c with metric := m2 }) cfg.outcome_constraints m).map
      (fun cs => { cfg with outcome_constraints := cs })

/-- Shallow embedding of `Client._overwrite_metric` (the
`self._none_throws_experiment()` receiver is the `exp` argument): substitute
`metric` at the first name match in the optimization config, else at the
first name match among the tracking metrics, else add it as a new tracking
metric.  The returned Bool records whether the "not found in optimization
config, added as tracking metric" warning was logged. -/
def Client._overwrite_metric (exp : Experiment) (metric : Metric) :
    Experiment × Bool :=
  let viaConfig : Option Experiment :=
    match exp.optimization_config with
    | some cfg =>
      (cfg.substituteMetric metric).map
        (fun cfg2 => { exp with optimization_config := some cfg2 })
    | none => none
  match viaConfig with
  | some exp2 => (exp2, false)
  | none =>
    match replaceFirstMetric exp.tracking_metrics metric with
    | some tm => ({ exp with tracking_metrics := tm }, false)
    | none =>
      ({ exp with tracking_metrics := exp.tracking_metrics ++ [metric] }, true)

/-- The metric slots of an objective in the resolver's scan order. -/
def Objective.metrics : Objective → List Metric
  | .single m => [m]
  | .scalarized ms => ms
  | .multi objs => objs.map SubObjective.metric

/-- The metric slots the optimization-config scan covers, in order:
objective slots, then outcome-constraint slots. -/
def configSlots (cfg : OptimizationConfig) : List Metric :=
  cfg.objective.metrics ++ cfg.outcome_constraints.map OutcomeConstraint.metric

/-- Every metric slot of the experiment, in the resolver's scan order:
objective slots, then outcome-constraint slots, then tracking-metric
slots. -/
def Experiment.metricSlots (exp : Experiment) : List Metric :=
  (match exp.optimization_config with
   | some cfg => configSlots cfg
   | none => []) ++ exp.tracking_metrics

/-- Position of the first metric slot whose name equals `name`, in scan
order. -/
def firstMatchIdx (slots : List Metric) (name : String) : Option Nat :=
  match slots with
  | [] => none
  | x :: xs =>
    if x.name = name then some 0 else (firstMatchIdx xs name).map (· + 1)

/-! ### Trial status transitions -/

/-- Modelled from the spec: core Ax `Trial.mark_failed` is not among the
sources.  "Manual override operations (`mark_failed`, `mark_abandoned`) are
permitted from `RUNNING` only; attempting them on a terminal trial is a
no-op-with-warning, not an error."  The Bool records whether the no-op
warning was emitted; from `CANDIDATE`, not covered by either spec clause,
the transition is refused. -/
def markFailedStatus (s : TrialStatus) : Except AxError (TrialStatus × Bool) :=
  if s = .RUNNING then .ok (.FAILED, false)
  else if s.isTerminal then .ok (s, true)
  else .error .invalidStatusTransition

/-- Modelled from the spec: core Ax `Trial.mark_abandoned`, with the same
RUNNING-only / terminal-no-op contract as `markFailedStatus`. -/
def markAbandonedStatus (s : TrialStatus) :
    Except AxError (TrialStatus × Bool) :=
  if s = .RUNNING then .ok (.ABANDONED, false)
  else if s.isTerminal then .ok (s, true)
  else .error .invalidStatusTransition

/-- Modelled from the spec: core Ax `Trial.mark_completed`.  The spec's
state machine admits no edge out of a terminal state, so on a terminal trial
the mark is a no-op; from `RUNNING` it transitions to `COMPLETED`. -/
def markCompletedStatus (s : TrialStatus) :
    Except AxError (TrialStatus × Bool) :=
  if s = .RUNNING then .ok (.COMPLETED, false)
  else if s.isTerminal then .ok (s, true)
  else .error .invalidStatusTransition

/-- Apply a status transition to the trial at `idx`, mirroring
`experiment.trials[trial_index].mark_*()`; a missing index is a lookup
failure (the spec's `NotFoundError`). -/
def Experiment.markTrial (exp : Experiment) (idx : Nat)
    (f : TrialStatus → Except AxError (TrialStatus × Bool)) :
    Except AxError (Experiment × Bool) :=
  match exp.trials[idx]? with
  | none => .error .notFoundError
  | some t =>
    match f t.status with
    | .error e => .error e
    | .ok (s, warned) =>
      .ok ({ exp with trials := exp.trials.set idx { t with status := s } },
        warned)

/-- Shallow embedding of `Client.mark_trial_failed`: manually mark the trial
as FAILED via the core mark (modelled above); the Bool is the idempotent
no-op warning. -/
def Client.mark_trial_failed (c : ClientState) (trial_index : Nat) :
    Except AxError (ClientState × Bool) :=
  match c.experiment with
  | none => .error .experimentNotSet
  | some exp =>
    match exp.markTrial trial_index markFailedStatus with
    | .error e => .error e
    | .ok (exp2, warned) => .ok ({ c with experiment := some exp2 }, warned)

/-- Shallow embedding of `Client.mark_trial_abandoned`. -/
def Client.mark_trial_abandoned (c : ClientState) (trial_index : Nat) :
    Except AxError (ClientState × Bool) :=
  match c.experiment with
  | none => .error .experimentNotSet
  | some exp =>
    match exp.markTrial trial_index markAbandonedStatus with
    | .error e => .error e
    | .ok (exp2, warned) => .ok ({ c with experiment := some exp2 }, warned)

/-! ### Data attachment and completion -/

/-- Modelled from the spec: core Ax `Trial.update_trial_data` with
`combine_with_last_data=True` is not among the sources.  "Builds one
observation record keyed by `progression` (or the no-progression sentinel if
omitted) ... later writes for the same step overwrite that step's values;
writes for new steps are appended." -/
def updateTrialData (data : List (Option Int × Outcome)) (step : Option Int)
    (raw : Outcome) : List (Option Int × Outcome) :=
  if data.any (fun r => r.1 = step) then
    data.map (fun r => if r.1 = step then (step, raw) else r)
  else data ++ [(step, raw)]

/-- Shallow embedding of `Client.attach_data`: merge the outcome into the
trial's accumulated record at the given progression step without touching
its status; a missing trial index is the spec's `NotFoundError`. -/
def Client.attach_data (c : ClientState) (trial_index : Nat)
    (raw_data : Outcome) (progression : Option Int) :
    Except AxError ClientState :=
  match c.experiment with
  | none => .error .experimentNotSet
  | some exp =>
    match exp.trials[trial_index]? with
    | none => .error .notFoundError
    | some t =>
      .ok { c with experiment := some { exp with
        trials := exp.trials.set trial_index
          { t with data := updateTrialData t.data progression raw_data } } }

/-- Names of the metrics present in the trial's accumulated data.  Modelled
from the spec: `lookup_data(trial_indices=[idx]).metric_names` (core Ax) is
the set of metric names of the trial's observation record. -/
def Trial.metricNames (t : Trial) : List String :=
  t.data.foldr (fun r acc => r.2.map Prod.fst ++ acc) []

/-- The metric names of each objective variant. -/
def Objective.metricNames : Objective → List String
  | .single m => [m.name]
  | .scalarized ms => ms.map Metric.name
  | .multi objs => objs.map (fun o => o.metric.name)

/-- Modelled from the spec: `requiredMetricNames(objective)` — the metric
names the optimization config requires at completion time
(`optimization_config.metrics.keys()` reads a core Ax property that is not
among the sources; the spec computes the missing set from the objective). -/
def OptimizationConfig.requiredMetricNames (cfg : OptimizationConfig) :
    List String :=
  cfg.objective.metricNames

/-- The status-update tail of `Client.complete_trial` (client.py lines
404-431, after the optional data attachment): with no optimization config
mark the trial COMPLETED; otherwise compute the missing required metric
names from the trial's data — if none are missing mark COMPLETED, else log
the missing set (returned as the third component) and mark FAILED through
`Client.mark_trial_failed`; finally return the trial's resulting status
re-read from the experiment. -/
def Client.complete_trial_finalize (c1 : ClientState) (trial_index : Nat) :
    Except AxError (ClientState × TrialStatus × Option (List String)) :=
  match c1.experiment with
  | none => .error .experimentNotSet
  | some exp =>
    match exp.optimization_config with
    | none =>
      match exp.markTrial trial_index markCompletedStatus with
      | .error e => .error e
      | .ok (exp2, _) =>
        match exp2.trials[trial_index]? with
        | none => .error .notFoundError
        | some t2 => .ok ({ c1 with experiment := some exp2 }, t2.status, none)
    | some cfg =>
      match exp.trials[trial_index]? with
      | none => .error .notFoundError
      | some t =>
        let missing := cfg.requiredMetricNames.filter
          (fun n => !(t.metricNames.contains n))
        if missing.isEmpty then
          match exp.markTrial trial_index markCompletedStatus with
          | .error e => .error e
          | .ok (exp2, _) =>
            match exp2.trials[trial_index]? with
            | none => .error .notFoundError
            | some t2 =>
              .ok ({ c1 with experiment := some exp2 }, t2.status, none)
        else
          match Client.mark_trial_failed c1 trial_index with
          | .error e => .error e
          | .ok (c2, _) =>
            match c2.experiment with
            | none => .error .experimentNotSet
            | some exp2 =>
              match exp2.trials[trial_index]? with
              | none => .error .notFoundError
              | some t2 => .ok (c2, t2.status, some missing)

/-- Shallow embedding of `Client.complete_trial`: optionally attach the raw
data first, then update the status via `Client.complete_trial_finalize`. -/
def Client.complete_trial (c : ClientState) (trial_index : Nat)
    (raw_data : Option Outcome) (progression : Option Int) :
    Except AxError (ClientState × TrialStatus × Option (List String)) :=
  match (match raw_data with
         | some raw => Client.attach_data c trial_index raw progression
         | none => .ok c) with
  | .error e => .error e
  | .ok c1 => Client.complete_trial_finalize c1 trial_index

/-! ### Trial generation (`Client.get_next_trials`) -/

/-- Modelled from the spec: core Ax
`get_pending_observation_features_based_on_trial_status` is not among the
sources.  "`pendingFeatures` is the parameterization of every trial not in a
terminal state, computed fresh before each call." -/
def Experiment.pendingFeatures (exp : Experiment) : List Parameterization :=
  (exp.trials.filter (fun t => !(t.status.isTerminal))).map
    (fun t => t.arm.parameters)

/-- Modelled from the spec: the default strategy `choose_generation_strategy`
synthesizes when none was configured (core Ax; the spec excludes
candidate-generation mathematics as an external collaborator).  Its value is
irrelevant to every theorem below, which quantify over configured
strategies. -/
def defaultGenerationStrategy : GenerationStrategy := fun _ _ _ => []

/-- Shallow embedding of `Client._generation_strategy_or_choose`: return the
configured strategy, or choose the default and pin it into the client
state. -/
def Client._generation_strategy_or_choose (c : ClientState) :
    GenerationStrategy × ClientState :=
  match c.generation_strategy with
  | some gs => (gs, c)
  | none =>
    (defaultGenerationStrategy,
      { c with generation_strategy := some defaultGenerationStrategy })

/-- The trials the loop over `generator_runs` creates: one RUNNING trial per
generated parameterization (`new_trial` then
`mark_running(no_runner_required=True)`), at consecutive indices starting at
`start`, with the core-Ax generated arm name "index_0". -/
def createTrials (start : Nat) : List Parameterization → List Trial
  | [] => []
  | p :: ps =>
    { arm := { name := toString start ++ "_0", parameters := p },
      status := .RUNNING, data := [] } :: createTrials (start + 1) ps

/-- The returned mapping of new trial index to parameterization. -/
def indexedParams (start : Nat) :
    List Parameterization → List (Nat × Parameterization)
  | [] => []
  | p :: ps => (start, p) :: indexedParams (start + 1) ps

/-- Shallow embedding of `Client.get_next_trials`: fail with
`UnsupportedError` when no optimization config is set (before the strategy
is consulted); otherwise invoke the strategy with the freshly computed
pending-observation features and the fixed parameters, register each
returned parameterization as a new RUNNING trial, and return the index to
parameterization mapping.  The `with_rng_seed` wrapper has no observable
effect in this embedding. -/
def Client.get_next_trials (c : ClientState) (maximum_trials : Nat)
    (fixed_parameters : Option Parameterization) :
    Except AxError (ClientState × List (Nat × Parameterization)) :=
  match c.experiment with
  | none => .error .experimentNotSet
  | some exp =>
    if exp.optimization_config.isNone then .error .unsupportedError
    else
      let gsc := Client._generation_strategy_or_choose c
      let params := gsc.1 exp.pendingFeatures fixed_parameters maximum_trials
      let start := exp.trials.length
      let exp2 := { exp with trials := exp.trials ++ createTrials start params }
      .ok ({ gsc.2 with experiment := some exp2 }, indexedParams start params)

/-! ### Custom trials and baseline -/

/-- Modelled from the spec: core Ax `Experiment.attach_trial` for a single
parameterization is not among the sources.  It registers a new single-arm
trial at the next monotonically increasing index, marked RUNNING ("The trial
will be marked as RUNNING"), named by the supplied arm name when one is
given and by the generated "index_0" name otherwise. -/
def Experiment.attachTrial (exp : Experiment) (parameters : Parameterization)
    (arm_names : Option (List String)) : Experiment × Nat :=
  let idx := exp.trials.length
  let name :=
    match arm_names with
    | some (n :: _) => n
    | some [] => toString idx ++ "_0"
    | none => toString idx ++ "_0"
  ({ exp with trials := exp.trials ++
      [{ arm := { name := name, parameters := parameters },
         status := .RUNNING, data := [] }] }, idx)

/-- Shallow embedding of `Client.attach_trial`.  The argument passed down is
`arm_names=[arm_name] if arm_name else None`: the empty string is falsy in
Python and is forwarded as no name. -/
def Client.attach_trial (c : ClientState) (parameters : Parameterization)
    (arm_name : Option String) : Except AxError (ClientState × Nat) :=
  match c.experiment with
  | none => .error .experimentNotSet
  | some exp =>
    let names : Option (List String) :=
      match arm_name with
      | some s => if s = "" then none else some [s]
      | none => none
    let r := exp.attachTrial parameters names
    .ok ({ c with experiment := some r.1 }, r.2)

/-- Shallow embedding of `Client.attach_baseline`: attach the trial under
the arm name `arm_name or "baseline"` (the empty string is falsy in Python),
then set the experiment's status-quo arm to the arm of the newly attached
trial and return its index. -/
def Client.attach_baseline (c : ClientState) (parameters : Parameterization)
    (arm_name : Option String) : Except AxError (ClientState × Nat) :=
  let name :=
    match arm_name with
    | some s => if s = "" then "baseline" else s
    | none => "baseline"
  match Client.attach_trial c parameters (some name) with
  | .error e => .error e
  | .ok (c1, idx) =>
    match c1.experiment with
    | none => .error .experimentNotSet
    | some exp =>
      match exp.trials[idx]? with
      | none => .error .notFoundError
      | some t =>
        let exp2 := { exp with status_quo := some t.arm }
        .ok ({ c1 with experiment := some exp2 }, idx)

/-! ### Early stopping and configuration -/

/-- Shallow embedding of `Client.should_stop_trial_early`: with no
early-stopping strategy set, fail with `UnsupportedError` (no default is
inferred); otherwise ask the strategy about the singleton index set and
report membership of the response. -/
def Client.should_stop_trial_early (c : ClientState) (trial_index : Nat) :
    Except AxError Bool :=
  match c.early_stopping_strategy with
  | none => .error .unsupportedError
  | some ess =>
    match c.experiment with
    | none => .error .experimentNotSet
    | some exp => .ok ((ess [trial_index] exp).contains trial_index)

/-- Shallow embedding of `Client.configure_experiment`: fail with
`UnsupportedError` when an experiment is already configured; otherwise store
the experiment.  Construction of the `Experiment` from an `ExperimentConfig`
(`experiment_from_config`) is excluded configuration glue outside the
sources, so the embedding receives the constructed experiment. -/
def Client.configure_experiment (c : ClientState) (constructed : Experiment) :
    Except AxError ClientState :=
  match c.experiment with
  | some _ => .error .unsupportedError
  | none => .ok { c with experiment := some constructed }

/-! ### Helper lemmas -/

/-- Setting a position of a list to the value it already holds is the
identity. -/
theorem set_self_of_getElem {α : Type} (l : List α) (i : Nat) (t : α)
    (h : l[i]? = some t) : l.set i t = l := by
  induction l generalizing i with
  | nil => simp at h
  | cons x xs ih =>
    cases i with
    | zero =>
      simp at h
      simp [h]
    | succ n =>
      simp at h
      simp [ih n h]

/-- A terminal status is not RUNNING. -/
theorem isTerminal_ne_running (s : TrialStatus)
    (h : s.isTerminal = true) : s ≠ TrialStatus.RUNNING := by
  cases s <;> simp [TrialStatus.isTerminal] at h ⊢

/-! ### Claim theorems: error handling of configuration and early stopping -/

/-- C8: if an experiment has already been configured, every subsequent call
to `configure_experiment` raises `UnsupportedError` (and, the operation
producing no successor state, leaves the existing experiment unchanged). -/
theorem configure_experiment_already_configured (c : ClientState)
    (exp constructed : Experiment) (h : c.experiment = some exp) :
    Client.configure_experiment c constructed = .error .unsupportedError := by
  simp [Client.configure_experiment, h]

/-- A minimal experiment with nothing configured, used by the concrete
instantiations below. -/
def emptyExperiment : Experiment :=
  { optimization_config := none, tracking_metrics := [], trials := [],
    status_quo := none }

/-- Witness for C8: re-configuring a concrete already-configured client
fails with `UnsupportedError`. -/
theorem configure_experiment_already_configured_witness :
    Client.configure_experiment
      { experiment := some emptyExperiment, generation_strategy := none,
        early_stopping_strategy := none }
      emptyExperiment = .error .unsupportedError :=
  configure_experiment_already_configured _ emptyExperiment _ rfl

/-- C9: for every trial index, `should_stop_trial_early` raises
`UnsupportedError` when no early-stopping strategy has been set; the
equation holds for every client state with an unset strategy, so no default
strategy is ever inferred. -/
theorem should_stop_trial_early_requires_strategy (c : ClientState)
    (trial_index : Nat) (h : c.early_stopping_strategy = none) :
    Client.should_stop_trial_early c trial_index =
      .error .unsupportedError := by
  simp [Client.should_stop_trial_early, h]

/-- Witness for C9 on a concrete client with an experiment but no
early-stopping strategy. -/
theorem should_stop_trial_early_requires_strategy_witness :
    Client.should_stop_trial_early
      { experiment := some emptyExperiment, generation_strategy := none,
        early_stopping_strategy := none } 0 = .error .unsupportedError :=
  should_stop_trial_early_requires_strategy _ 0 rfl

/-- C7: for every experiment whose optimization config is not set,
`get_next_trials` fails with `UnsupportedError`.  The equation holds for
every client state — in particular for every stored generation strategy —
so the strategy is never consulted, and the error carries no successor
state, so no trial is created. -/
theorem get_next_trials_requires_optimization_config (c : ClientState)
    (exp : Experiment) (n : Nat) (fixed : Option Parameterization)
    (hexp : c.experiment = some exp)
    (hcfg : exp.optimization_config = none) :
    Client.get_next_trials c n fixed = .error .unsupportedError := by
  simp [Client.get_next_trials, hexp, hcfg]

/-- Witness for C7 on a concrete configured client with no optimization
config. -/
theorem get_next_trials_requires_optimization_config_witness :
    Client.get_next_trials
      { experiment := some emptyExperiment, generation_strategy := none,
        early_stopping_strategy := none } 1 none =
      .error .unsupportedError :=
  get_next_trials_requires_optimization_config _ emptyExperiment 1 none
    rfl rfl

/-! ### Claim theorems: idempotent terminal no-ops (C4) -/

/-- C4: for every trial already in a terminal status, `mark_trial_failed`
and `mark_trial_abandoned` are no-ops with a warning — the client state is
returned unchanged, the warning flag is set, and no error is raised. -/
theorem mark_terminal_trial_noop (c : ClientState) (exp : Experiment)
    (idx : Nat) (t : Trial) (hexp : c.experiment = some exp)
    (ht : exp.trials[idx]? = some t) (hterm : t.status.isTerminal = true) :
    Client.mark_trial_failed c idx = .ok (c, true) ∧
      Client.mark_trial_abandoned c idx = .ok (c, true) := by
  have hnr : t.status ≠ TrialStatus.RUNNING := isTerminal_ne_running _ hterm
  have hmf : markFailedStatus t.status = .ok (t.status, true) := by
    simp [markFailedStatus, hnr, hterm]
  have hma : markAbandonedStatus t.status = .ok (t.status, true) := by
    simp [markAbandonedStatus, hnr, hterm]
  have hteta : ({ t with status := t.status } : Trial) = t := rfl
  have hset : exp.trials.set idx { t with status := t.status } = exp.trials := by
    rw [hteta]
    exact set_self_of_getElem _ _ _ ht
  have hexp2 : ({ exp with trials := exp.trials } : Experiment) = exp := rfl
  have hc : ({ c with experiment := some exp } : ClientState) = c := by
    rw [← hexp]
  constructor
  · simp [Client.mark_trial_failed, Experiment.markTrial, hexp, ht, hmf,
      hset, hexp2, hc]
  · simp [Client.mark_trial_abandoned, Experiment.markTrial, hexp, ht, hma,
      hset, hexp2, hc]

/-- An experiment holding one COMPLETED trial, for concrete
instantiations. -/
def terminalTrialExperiment : Experiment :=
  { optimization_config := none, tracking_metrics := [],
    trials := [{ arm := { name := "0_0", parameters := [] },
                 status := .COMPLETED, data := [] }],
    status_quo := none }

/-- A client holding `terminalTrialExperiment`. -/
def terminalTrialClient : ClientState :=
  { experiment := some terminalTrialExperiment, generation_strategy := none,
    early_stopping_strategy := none }

/-- Witness for C4: re-marking the concrete COMPLETED trial is a no-op with
a warning for both manual marks. -/
theorem mark_terminal_trial_noop_witness :
    Client.mark_trial_failed terminalTrialClient 0 =
        .ok (terminalTrialClient, true) ∧
      Client.mark_trial_abandoned terminalTrialClient 0 =
        .ok (terminalTrialClient, true) :=
  mark_terminal_trial_noop terminalTrialClient terminalTrialExperiment 0
    { arm := { name := "0_0", parameters := [] },
      status := .COMPLETED, data := [] }
    rfl rfl rfl

/-! ### Claim theorems: data attachment (C5) -/

/-- C5: `attach_data` fails with `NotFoundError` on a trial index absent
from the experiment's trial collection; on an existing index it succeeds and
leaves the status of every trial unchanged — it never transitions
status. -/
theorem attach_data_spec (c : ClientState) (exp : Experiment) (idx : Nat)
    (raw : Outcome) (prog : Option Int) (hexp : c.experiment = some exp) :
    (exp.trials[idx]? = none →
      Client.attach_data c idx raw prog = .error .notFoundError) ∧
    (∀ t, exp.trials[idx]? = some t →
      ∃ c2 exp2, Client.attach_data c idx raw prog = .ok c2 ∧
        c2.experiment = some exp2 ∧
        exp2.trials.map Trial.status = exp.trials.map Trial.status) := by
  constructor
  · intro h
    simp [Client.attach_data, hexp, h]
  · intro t ht
    refine ⟨{ c with experiment := some { exp with
        trials := exp.trials.set idx
          { t with data := updateTrialData t.data prog raw } } },
      { exp with
        trials := exp.trials.set idx
          { t with data := updateTrialData t.data prog raw } },
      ?_, rfl, ?_⟩
    · simp [Client.attach_data, hexp, ht]
    · show (exp.trials.set idx
          { t with data := updateTrialData t.data prog raw }).map Trial.status
        = exp.trials.map Trial.status
      rw [List.map_set]
      apply set_self_of_getElem
      rw [List.getElem?_map, ht]
      rfl

/-- Witness for C5: on a concrete one-trial client, index 1 is absent and
fails with `NotFoundError`, and attaching to index 0 succeeds with all
statuses unchanged. -/
theorem attach_data_spec_witness :
    Client.attach_data terminalTrialClient 1 [("m", 1)] none =
        .error .notFoundError ∧
      ∃ c2 exp2,
        Client.attach_data terminalTrialClient 0 [("m", 1)] none = .ok c2 ∧
        c2.experiment = some exp2 ∧
        exp2.trials.map Trial.status =
          terminalTrialExperiment.trials.map Trial.status :=
  ⟨(attach_data_spec terminalTrialClient terminalTrialExperiment 1
      [("m", 1)] none rfl).1 rfl,
   (attach_data_spec terminalTrialClient terminalTrialExperiment 0
      [("m", 1)] none rfl).2
     { arm := { name := "0_0", parameters := [] },
       status := .COMPLETED, data := [] } rfl⟩

/-! ### Claim theorems: baseline attachment (C10) -/

/-- C10: `attach_baseline` attaches a new RUNNING trial carrying the given
parameterization at the next index, sets the experiment's status-quo arm to
the arm of that newly attached trial, names the arm "baseline" whenever no
arm name is supplied, and returns the new trial's index. -/
theorem attach_baseline_spec (c : ClientState) (exp : Experiment)
    (params : Parameterization) (arm_name : Option String)
    (hexp : c.experiment = some exp) :
    ∃ c2 exp2 t,
      Client.attach_baseline c params arm_name =
        .ok (c2, exp.trials.length) ∧
      c2.experiment = some exp2 ∧
      exp2.trials.length = exp.trials.length + 1 ∧
      exp2.trials[exp.trials.length]? = some t ∧
      t.arm.parameters = params ∧
      t.status = .RUNNING ∧
      exp2.status_quo = some t.arm ∧
      (arm_name = none → t.arm.name = "baseline") := by
  obtain ⟨nm, hnm, hne⟩ :
      ∃ nm, (match arm_name with
              | some s => if s = "" then "baseline" else s
              | none => "baseline") = nm ∧ nm ≠ "" := by
    cases arm_name with
    | none => exact ⟨"baseline", rfl, by decide⟩
    | some s =>
      by_cases hs : s = ""
      · exact ⟨"baseline", by simp [hs], by decide⟩
      · exact ⟨s, by simp [hs], hs⟩
  refine ⟨{ c with experiment := some { exp with
      trials := exp.trials ++
        [{ arm := { name := nm, parameters := params },
           status := .RUNNING, data := [] }],
      status_quo := some { name := nm, parameters := params } } },
    { exp with
      trials := exp.trials ++
        [{ arm := { name := nm, parameters := params },
           status := .RUNNING, data := [] }],
      status_quo := some { name := nm, parameters := params } },
    { arm := { name := nm, parameters := params },
      status := .RUNNING, data := [] }, ?_, rfl, ?_, ?_, rfl, rfl, rfl, ?_⟩
  · show Client.attach_baseline c params arm_name = _
    unfold Client.attach_baseline
    rw [hnm]
    simp [Client.attach_trial, Experiment.attachTrial, hexp, hne,
      List.getElem?_concat_length]
  · simp
  · show (exp.trials ++ _)[exp.trials.length]? = _
    rw [List.getElem?_concat_length]
  · intro ha
    subst ha
    exact hnm.symm

/-- Witness for C10: attaching a baseline with no arm name to a concrete
client yields index 0, a RUNNING trial named "baseline", and the status quo
set to its arm. -/
theorem attach_baseline_spec_witness :
    ∃ c2 exp2 t,
      Client.attach_baseline
        { experiment := some emptyExperiment, generation_strategy := none,
          early_stopping_strategy := none } [("x", 5)] none = .ok (c2, 0) ∧
      c2.experiment = some exp2 ∧
      exp2.trials.length = 0 + 1 ∧
      exp2.trials[0]? = some t ∧
      t.arm.parameters = [("x", 5)] ∧
      t.status = .RUNNING ∧
      exp2.status_quo = some t.arm ∧
      ((none : Option String) = none → t.arm.name = "baseline") := by
  have h := attach_baseline_spec
    { experiment := some emptyExperiment, generation_strategy := none,
      early_stopping_strategy := none } emptyExperiment [("x", 5)] none rfl
  simpa [emptyExperiment] using h

/-! ### Claim theorems: pending observations at generation time (C3) -/

/-- The trials created from generated parameterizations carry exactly those
parameterizations. -/
theorem createTrials_parameters (s : Nat) (ps : List Parameterization) :
    (createTrials s ps).map (fun t => t.arm.parameters) = ps := by
  induction ps generalizing s with
  | nil => rfl
  | cons p ps ih => simp [createTrials, ih]

/-- Every trial created by generation is RUNNING. -/
theorem createTrials_status (s : Nat) (ps : List Parameterization) :
    ∀ t ∈ createTrials s ps, t.status = TrialStatus.RUNNING := by
  induction ps generalizing s with
  | nil =>
    intro t ht
    simp [createTrials] at ht
  | cons p ps ih =>
    intro t ht
    rw [createTrials] at ht
    rcases List.mem_cons.mp ht with h | h
    · rw [h]
    · exact ih (s + 1) t h

/-- No trial created by generation is terminal. -/
theorem createTrials_not_terminal (s : Nat) (ps : List Parameterization) :
    (createTrials s ps).filter (fun t => !(t.status.isTerminal)) =
      createTrials s ps := by
  rw [List.filter_eq_self]
  intro t ht
  rw [createTrials_status s ps t ht]
  rfl

/-- The returned index map carries exactly the generated
parameterizations. -/
theorem indexedParams_map_snd (s : Nat) (ps : List Parameterization) :
    (indexedParams s ps).map Prod.snd = ps := by
  induction ps generalizing s with
  | nil => rfl
  | cons p ps ih => simp [indexedParams, ih]

/-- C3: on a configured client, `get_next_trials` invokes the generation
strategy with the pending-observation features computed fresh from the
current trial statuses — the parameterizations of exactly the non-terminal
trials — and the returned trials are those the strategy produced on that
pending set; afterwards the freshly computed pending set, which a second
call passes to the strategy, is the previous pending set extended by
exactly the parameterizations the first call produced (all created
non-terminal).  In particular, when every prior trial is terminal the
previous pending set is empty and a second call receives exactly the
non-terminal trials produced by the first. -/
theorem get_next_trials_pending_fresh (c : ClientState) (exp : Experiment)
    (gs : GenerationStrategy) (n : Nat) (fixed : Option Parameterization)
    (hexp : c.experiment = some exp) (hgs : c.generation_strategy = some gs)
    (hcfg : exp.optimization_config.isSome = true) :
    ∃ c2 exp2 out,
      Client.get_next_trials c n fixed = .ok (c2, out) ∧
      c2.experiment = some exp2 ∧
      out.map Prod.snd = gs exp.pendingFeatures fixed n ∧
      exp2.pendingFeatures =
        exp.pendingFeatures ++ gs exp.pendingFeatures fixed n := by
  have hnn : exp.optimization_config.isNone = false := by
    cases h : exp.optimization_config <;> simp [h] at hcfg ⊢
  refine ⟨{ c with experiment := some { exp with
      trials := exp.trials ++
        createTrials exp.trials.length (gs exp.pendingFeatures fixed n) } },
    { exp with
      trials := exp.trials ++
        createTrials exp.trials.length (gs exp.pendingFeatures fixed n) },
    indexedParams exp.trials.length (gs exp.pendingFeatures fixed n),
    ?_, rfl, indexedParams_map_snd _ _, ?_⟩
  · simp [Client.get_next_trials, hexp, hnn,
      Client._generation_strategy_or_choose, hgs]
  · show Experiment.pendingFeatures _ = _
    simp [Experiment.pendingFeatures, List.filter_append, List.map_append,
      createTrials_not_terminal, createTrials_parameters]

/-- A concrete generation strategy for the instantiation below: one fixed
parameter point per requested trial. -/
def constantStrategy : GenerationStrategy :=
  fun _ _ n => (List.range n).map (fun i => [("x", Int.ofNat i)])

/-- An experiment whose single prior trial is terminal, with an objective
configured. -/
def generationExperiment : Experiment :=
  { optimization_config := some
      { objective := .single { name := "A", impl := 0 },
        outcome_constraints := [] },
    tracking_metrics := [],
    trials := [{ arm := { name := "0_0", parameters := [("x", 9)] },
                 status := .COMPLETED, data := [] }],
    status_quo := none }

/-- A client holding `generationExperiment` and `constantStrategy`. -/
def generationClient : ClientState :=
  { experiment := some generationExperiment,
    generation_strategy := some constantStrategy,
    early_stopping_strategy := none }

/-- Witness for C3 on the concrete client: the prior trial being terminal,
the post-call pending set is exactly what the strategy produced. -/
theorem get_next_trials_pending_fresh_witness :
    ∃ c2 exp2 out,
      Client.get_next_trials generationClient 2 none = .ok (c2, out) ∧
      c2.experiment = some exp2 ∧
      out.map Prod.snd =
        constantStrategy generationExperiment.pendingFeatures none 2 ∧
      exp2.pendingFeatures =
        generationExperiment.pendingFeatures ++
          constantStrategy generationExperiment.pendingFeatures none 2 :=
  get_next_trials_pending_fresh generationClient generationExperiment
    constantStrategy 2 none rfl rfl rfl

/-! ### Claim theorems: metric resolution (C2, C6) -/

/-- A first-match index lies within the list. -/
theorem firstMatchIdx_lt_length (l : List Metric) (name : String) (i : Nat)
    (h : firstMatchIdx l name = some i) : i < l.length := by
  induction l generalizing i with
  | nil => simp [firstMatchIdx] at h
  | cons x xs ih =>
    by_cases hx : x.name = name
    · simp [firstMatchIdx, hx] at h
      simp [← h]
    · simp [firstMatchIdx, hx] at h
      obtain ⟨j, hj, hji⟩ := h
      have := ih j hj
      simp
      omega

/-- When no slot name matches, there is no first-match index. -/
theorem firstMatchIdx_eq_none (l : List Metric) (name : String)
    (h : ∀ x ∈ l, x.name ≠ name) : firstMatchIdx l name = none := by
  induction l with
  | nil => rfl
  | cons x xs ih =>
    have hx : x.name ≠ name := h x (List.mem_cons_self x xs)
    rw [firstMatchIdx, if_neg hx,
      ih (fun y hy => h y (List.mem_cons_of_mem x hy))]
    rfl

/-- `replaceFirstMetric` substitutes exactly at the first-match index, and
does nothing else. -/
theorem replaceFirstMetric_eq (l : List Metric) (m : Metric) :
    replaceFirstMetric l m =
      (firstMatchIdx l m.name).map (fun i => l.set i m) := by
  induction l with
  | nil => rfl
  | cons x xs ih =>
    by_cases hx : x.name = m.name
    · simp [replaceFirstMetric, replaceFirstSlot, firstMatchIdx, hx]
    · simp only [replaceFirstMetric, replaceFirstSlot, firstMatchIdx, id_eq,
        hx, if_false, ite_false]
      rw [show replaceFirstSlot id (fun _ m2 => m2) xs m
          = replaceFirstMetric xs m from rfl, ih]
      cases firstMatchIdx xs m.name <;> simp

/-- The metric view of a slot scan is the scan of the metric view. -/
theorem replaceFirstSlot_map_view {α : Type} (getM : α → Metric)
    (setM : α → Metric → α) (hget : ∀ x m2, getM (setM x m2) = m2)
    (l : List α) (m : Metric) :
    (replaceFirstSlot getM setM l m).map (List.map getM)
      = replaceFirstMetric (l.map getM) m := by
  induction l with
  | nil => rfl
  | cons x xs ih =>
    by_cases hx : (getM x).name = m.name
    · simp [replaceFirstSlot, replaceFirstMetric, hx, hget]
    · simp only [replaceFirstSlot, List.map_cons, replaceFirstMetric, id_eq,
        hx, if_false, ite_false]
      rw [show replaceFirstSlot id (fun _ m2 => m2) (xs.map getM) m
          = replaceFirstMetric (xs.map getM) m from rfl, ← ih]
      cases replaceFirstSlot getM setM xs m <;> simp

/-- A successful slot scan, seen through the metric view: first-match
substitution. -/
theorem replaceFirstSlot_some_view {α : Type} (getM : α → Metric)
    (setM : α → Metric → α) (hget : ∀ x m2, getM (setM x m2) = m2)
    (l : List α) (m : Metric) (l2 : List α)
    (h : replaceFirstSlot getM setM l m = some l2) :
    ∃ i, firstMatchIdx (l.map getM) m.name = some i ∧
      l2.map getM = (l.map getM).set i m := by
  have hv := replaceFirstSlot_map_view getM setM hget l m
  rw [h, replaceFirstMetric_eq] at hv
  cases hi : firstMatchIdx (l.map getM) m.name with
  | none =>
    rw [hi] at hv
    simp at hv
  | some i =>
    rw [hi] at hv
    simp at hv
    exact ⟨i, rfl, hv⟩

/-- A failed slot scan, seen through the metric view: no first match. -/
theorem replaceFirstSlot_none_view {α : Type} (getM : α → Metric)
    (setM : α → Metric → α) (hget : ∀ x m2, getM (setM x m2) = m2)
    (l : List α) (m : Metric)
    (h : replaceFirstSlot getM setM l m = none) :
    firstMatchIdx (l.map getM) m.name = none := by
  have hv := replaceFirstSlot_map_view getM setM hget l m
  rw [h, replaceFirstMetric_eq] at hv
  cases hi : firstMatchIdx (l.map getM) m.name with
  | none => rfl
  | some i =>
    rw [hi] at hv
    simp at hv

/-- First-match search over an append: a match in the prefix wins. -/
theorem firstMatchIdx_append_left (a b : List Metric) (name : String)
    (i : Nat) (h : firstMatchIdx a name = some i) :
    firstMatchIdx (a ++ b) name = some i := by
  induction a generalizing i with
  | nil => simp [firstMatchIdx] at h
  | cons x xs ih =>
    by_cases hx : x.name = name
    · simp [firstMatchIdx, hx] at h ⊢
      exact h
    · simp only [List.cons_append, firstMatchIdx, hx, if_false,
        ite_false] at h ⊢
      simp at h
      obtain ⟨j, hj, hji⟩ := h
      rw [List.append_eq, ih j hj]
      simp [hji]

/-- First-match search over an append: with no match in the prefix, the
search continues in the suffix at an offset. -/
theorem firstMatchIdx_append_right (a b : List Metric) (name : String)
    (h : firstMatchIdx a name = none) :
    firstMatchIdx (a ++ b) name =
      (firstMatchIdx b name).map (fun j => a.length + j) := by
  induction a with
  | nil =>
    simp only [List.nil_append, List.length_nil]
    cases firstMatchIdx b name <;> simp
  | cons x xs ih =>
    by_cases hx : x.name = name
    · rw [firstMatchIdx, if_pos hx] at h
      cases h
    · rw [firstMatchIdx, if_neg hx] at h
      have hxs : firstMatchIdx xs name = none := by
        cases hh : firstMatchIdx xs name
        · rfl
        · rw [hh] at h
          cases h
      rw [List.cons_append, firstMatchIdx, if_neg hx, ih hxs]
      cases firstMatchIdx b name with
      | none => rfl
      | some j =>
        simp
        omega

/-- Setting inside the prefix of an append. -/
theorem set_append_of_lt (os v : List Metric) (i : Nat) (m : Metric)
    (hi : i < os.length) : (os ++ v).set i m = os.set i m ++ v := by
  rw [List.set_append, if_pos hi]

/-- Setting inside the suffix of an append. -/
theorem set_append_of_ge (os v : List Metric) (j : Nat) (m : Metric) :
    (os ++ v).set (os.length + j) m = os ++ v.set j m := by
  rw [List.set_append, if_neg (by omega)]
  have hj : os.length + j - os.length = j := by omega
  rw [hj]

/-- A successful outcome-constraint scan after an objective stage with no
match: substitution lands at the offset first-match index. -/
theorem constraintStage_some (os : List Metric) (cs cs2 : List OutcomeConstraint)
    (m : Metric) (hnone : firstMatchIdx os m.name = none)
    (hr : replaceFirstSlot OutcomeConstraint.metric
      (fun c m2 => { c with metric := m2 }) cs m = some cs2) :
    ∃ i, firstMatchIdx (os ++ cs.map OutcomeConstraint.metric) m.name = some i ∧
      os ++ cs2.map OutcomeConstraint.metric =
        (os ++ cs.map OutcomeConstraint.metric).set i m := by
  obtain ⟨j, hj, hview⟩ :=
    replaceFirstSlot_some_view _ _ (fun _ _ => rfl) cs m cs2 hr
  refine ⟨os.length + j, ?_, ?_⟩
  · rw [firstMatchIdx_append_right _ _ _ hnone, hj]
    rfl
  · rw [hview, set_append_of_ge]

/-- A successful optimization-config scan substitutes exactly at the first
match of the config's slot list. -/
theorem substituteMetric_some (cfg : OptimizationConfig) (m : Metric)
    (cfg2 : OptimizationConfig) (h : cfg.substituteMetric m = some cfg2) :
    ∃ i, firstMatchIdx (configSlots cfg) m.name = some i ∧
      configSlots cfg2 = (configSlots cfg).set i m := by
  obtain ⟨obj, cs⟩ := cfg
  cases obj with
  | single m0 =>
    by_cases h0 : m0.name = m.name
    · simp [OptimizationConfig.substituteMetric, h0] at h
      refine ⟨0, ?_, ?_⟩
      · simp [configSlots, Objective.metrics, firstMatchIdx, h0]
      · rw [← h]
        simp [configSlots, Objective.metrics]
    · cases hr2 : replaceFirstSlot OutcomeConstraint.metric
          (fun c m2 => { c with metric := m2 }) cs m with
      | none => simp [OptimizationConfig.substituteMetric, h0, hr2] at h
      | some cs2 =>
        simp [OptimizationConfig.substituteMetric, h0, hr2] at h
        obtain ⟨i, hi, hset⟩ := constraintStage_some [m0] cs cs2 m
          (by simp [firstMatchIdx, h0]) hr2
        refine ⟨i, ?_, ?_⟩
        · simpa [configSlots, Objective.metrics] using hi
        · rw [← h]
          simpa [configSlots, Objective.metrics] using hset
  | scalarized ms =>
    cases hr : replaceFirstMetric ms m with
    | some ms2 =>
      simp [OptimizationConfig.substituteMetric, hr] at h
      rw [replaceFirstMetric_eq] at hr
      cases hi : firstMatchIdx ms m.name with
      | none =>
        rw [hi] at hr
        cases hr
      | some i =>
        rw [hi] at hr
        simp at hr
        refine ⟨i, firstMatchIdx_append_left _ _ _ _ hi, ?_⟩
        rw [← h]
        simp only [configSlots, Objective.metrics]
        rw [← hr,
          set_append_of_lt _ _ _ _ (firstMatchIdx_lt_length _ _ _ hi)]
    | none =>
      cases hr2 : replaceFirstSlot OutcomeConstraint.metric
          (fun c m2 => { c with metric := m2 }) cs m with
      | none => simp [OptimizationConfig.substituteMetric, hr, hr2] at h
      | some cs2 =>
        simp [OptimizationConfig.substituteMetric, hr, hr2] at h
        have hms : firstMatchIdx ms m.name = none := by
          rw [replaceFirstMetric_eq] at hr
          cases hi : firstMatchIdx ms m.name with
          | none => rfl
          | some i =>
            rw [hi] at hr
            cases hr
        obtain ⟨i, hi, hset⟩ := constraintStage_some ms cs cs2 m hms hr2
        refine ⟨i, ?_, ?_⟩
        · simpa [configSlots, Objective.metrics] using hi
        · rw [← h]
          simpa [configSlots, Objective.metrics] using hset
  | multi objs =>
    cases hr : replaceFirstSlot SubObjective.metric
        (fun o m2 => { o with metric := m2 }) objs m with
    | some objs2 =>
      simp [OptimizationConfig.substituteMetric, hr] at h
      obtain ⟨i, hi, hview⟩ :=
        replaceFirstSlot_some_view _ _ (fun _ _ => rfl) objs m objs2 hr
      refine ⟨i, firstMatchIdx_append_left _ _ _ _ hi, ?_⟩
      rw [← h]
      simp only [configSlots, Objective.metrics]
      rw [hview,
        set_append_of_lt _ _ _ _ (firstMatchIdx_lt_length _ _ _ hi)]
    | none =>
      cases hr2 : replaceFirstSlot OutcomeConstraint.metric
          (fun c m2 => { c with metric := m2 }) cs m with
      | none => simp [OptimizationConfig.substituteMetric, hr, hr2] at h
      | some cs2 =>
        simp [OptimizationConfig.substituteMetric, hr, hr2] at h
        have hms : firstMatchIdx (objs.map SubObjective.metric) m.name = none :=
          replaceFirstSlot_none_view _ _ (fun _ _ => rfl) objs m hr
        obtain ⟨i, hi, hset⟩ :=
          constraintStage_some (objs.map SubObjective.metric) cs cs2 m hms hr2
        refine ⟨i, ?_, ?_⟩
        · simpa [configSlots, Objective.metrics] using hi
        · rw [← h]
          simpa [configSlots, Objective.metrics] using hset

/-- A failed optimization-config scan means no slot of the config
matches. -/
theorem substituteMetric_none (cfg : OptimizationConfig) (m : Metric)
    (h : cfg.substituteMetric m = none) :
    firstMatchIdx (configSlots cfg) m.name = none := by
  obtain ⟨obj, cs⟩ := cfg
  cases obj with
  | single m0 =>
    by_cases h0 : m0.name = m.name
    · simp [OptimizationConfig.substituteMetric, h0] at h
    · cases hr2 : replaceFirstSlot OutcomeConstraint.metric
          (fun c m2 => { c with metric := m2 }) cs m with
      | some cs2 => simp [OptimizationConfig.substituteMetric, h0, hr2] at h
      | none =>
        have hcs := replaceFirstSlot_none_view _ _ (fun _ _ => rfl) cs m hr2
        show firstMatchIdx ([m0] ++ cs.map OutcomeConstraint.metric)
          m.name = none
        rw [firstMatchIdx_append_right _ _ _ (by simp [firstMatchIdx, h0]),
          hcs]
        rfl
  | scalarized ms =>
    cases hr : replaceFirstMetric ms m with
    | some ms2 => simp [OptimizationConfig.substituteMetric, hr] at h
    | none =>
      cases hr2 : replaceFirstSlot OutcomeConstraint.metric
          (fun c m2 => { c with metric := m2 }) cs m with
      | some cs2 => simp [OptimizationConfig.substituteMetric, hr, hr2] at h
      | none =>
        have hms : firstMatchIdx ms m.name = none := by
          rw [replaceFirstMetric_eq] at hr
          cases hi : firstMatchIdx ms m.name with
          | none => rfl
          | some i =>
            rw [hi] at hr
            cases hr
        have hcs := replaceFirstSlot_none_view _ _ (fun _ _ => rfl) cs m hr2
        show firstMatchIdx (ms ++ cs.map OutcomeConstraint.metric)
          m.name = none
        rw [firstMatchIdx_append_right _ _ _ hms, hcs]
        rfl
  | multi objs =>
    cases hr : replaceFirstSlot SubObjective.metric
        (fun o m2 => { o with metric := m2 }) objs m with
    | some objs2 => simp [OptimizationConfig.substituteMetric, hr] at h
    | none =>
      cases hr2 : replaceFirstSlot OutcomeConstraint.metric
          (fun c m2 => { c with metric := m2 }) cs m with
      | some cs2 => simp [OptimizationConfig.substituteMetric, hr, hr2] at h
      | none =>
        have hms := replaceFirstSlot_none_view _ _ (fun _ _ => rfl) objs m hr
        have hcs := replaceFirstSlot_none_view _ _ (fun _ _ => rfl) cs m hr2
        show firstMatchIdx (objs.map SubObjective.metric ++
          cs.map OutcomeConstraint.metric) m.name = none
        rw [firstMatchIdx_append_right _ _ _ hms, hcs]
        rfl

/-- C2: metric resolution performs exactly one substitution or insertion,
chosen by deterministic first-match order over the scan — the objective's
slots (multi sub-objectives in order, or the scalarized metric list in
order, or the single metric), then the outcome constraints in declaration
order, then the tracking metrics — replacing the first slot whose name
equals the metric's name, and inserting the metric as a new tracking slot
when no name matches. -/
theorem overwrite_metric_resolution (exp : Experiment) (m : Metric) :
    ((Client._overwrite_metric exp m).1).metricSlots =
      (match firstMatchIdx exp.metricSlots m.name with
       | some i => exp.metricSlots.set i m
       | none => exp.metricSlots ++ [m]) := by
  obtain ⟨ocfg, tms, trs, sq⟩ := exp
  cases ocfg with
  | none =>
    cases hr : replaceFirstMetric tms m with
    | some tm2 =>
      have hr2 := hr
      rw [replaceFirstMetric_eq] at hr2
      cases hi : firstMatchIdx tms m.name with
      | none =>
        rw [hi] at hr2
        cases hr2
      | some j =>
        rw [hi] at hr2
        simp at hr2
        simp only [Client._overwrite_metric, hr, Experiment.metricSlots,
          List.nil_append, hi]
        rw [← hr2]
    | none =>
      have hr2 := hr
      rw [replaceFirstMetric_eq] at hr2
      have hi : firstMatchIdx tms m.name = none := by
        cases hh : firstMatchIdx tms m.name
        · rfl
        · rw [hh] at hr2
          cases hr2
      simp only [Client._overwrite_metric, hr, Experiment.metricSlots,
        List.nil_append, hi]
  | some cfg =>
    cases hc : cfg.substituteMetric m with
    | some cfg2 =>
      obtain ⟨i, hi, hset⟩ := substituteMetric_some cfg m cfg2 hc
      simp [Client._overwrite_metric, hc, Experiment.metricSlots]
      rw [firstMatchIdx_append_left _ _ _ _ hi]
      show configSlots cfg2 ++ tms = (configSlots cfg ++ tms).set i m
      rw [hset,
        set_append_of_lt _ _ _ _ (firstMatchIdx_lt_length _ _ _ hi)]
    | none =>
      have hnone := substituteMetric_none cfg m hc
      cases hr : replaceFirstMetric tms m with
      | some tm2 =>
        have hr2 := hr
        rw [replaceFirstMetric_eq] at hr2
        cases hj : firstMatchIdx tms m.name with
        | none =>
          rw [hj] at hr2
          cases hr2
        | some j =>
          rw [hj] at hr2
          simp at hr2
          simp [Client._overwrite_metric, hc, hr, Experiment.metricSlots]
          rw [firstMatchIdx_append_right _ _ _ hnone, hj]
          show configSlots cfg ++ tm2 =
            (configSlots cfg ++ tms).set ((configSlots cfg).length + j) m
          rw [← hr2, set_append_of_ge]
      | none =>
        have hr2 := hr
        rw [replaceFirstMetric_eq] at hr2
        have hj : firstMatchIdx tms m.name = none := by
          cases hh : firstMatchIdx tms m.name
          · rfl
          · rw [hh] at hr2
            cases hr2
        simp [Client._overwrite_metric, hc, hr, Experiment.metricSlots]
        rw [firstMatchIdx_append_right _ _ _ hnone, hj]
        rfl

/-- C6: resolving a metric whose name matches no objective metric, no
outcome-constraint metric, and no tracking metric adds it as a new tracking
metric with the non-fatal warning, and leaves the optimization config — the
objective and the outcome constraints — unchanged. -/
theorem overwrite_metric_unknown_adds_tracking (exp : Experiment)
    (m : Metric) (h : ∀ s ∈ exp.metricSlots, s.name ≠ m.name) :
    Client._overwrite_metric exp m =
      ({ exp with tracking_metrics := exp.tracking_metrics ++ [m] },
        true) := by
  obtain ⟨ocfg, tms, trs, sq⟩ := exp
  have htm : ∀ x ∈ tms, x.name ≠ m.name := by
    intro x hx
    apply h
    show x ∈ Experiment.metricSlots _
    simp only [Experiment.metricSlots]
    exact List.mem_append_right _ hx
  have htr : replaceFirstMetric tms m = none := by
    rw [replaceFirstMetric_eq, firstMatchIdx_eq_none tms m.name htm]
    rfl
  cases ocfg with
  | none => simp [Client._overwrite_metric, htr]
  | some cfg =>
    have hcs : firstMatchIdx (configSlots cfg) m.name = none := by
      apply firstMatchIdx_eq_none
      intro x hx
      apply h
      show x ∈ Experiment.metricSlots _
      simp only [Experiment.metricSlots]
      exact List.mem_append_left _ hx
    have hsub : cfg.substituteMetric m = none := by
      cases hh : cfg.substituteMetric m with
      | none => rfl
      | some cfg2 =>
        obtain ⟨i, hi, _⟩ := substituteMetric_some cfg m cfg2 hh
        rw [hcs] at hi
        cases hi
    simp [Client._overwrite_metric, hsub, htr]

/-- An experiment with a two-metric multi-objective, one outcome
constraint, and one tracking metric, for the concrete instantiation
below. -/
def resolverExperiment : Experiment :=
  { optimization_config := some
      { objective := .multi
          [{ metric := { name := "a", impl := 0 }, minimize := true },
           { metric := { name := "b", impl := 0 }, minimize := false }],
        outcome_constraints :=
          [{ metric := { name := "c", impl := 0 }, bound := 5,
             relative := false }] },
    tracking_metrics := [{ name := "t", impl := 0 }],
    trials := [], status_quo := none }

/-- Witness for C6: resolving the unknown name "d" on the concrete
experiment appends it to the tracking metrics with the warning and touches
nothing else. -/
theorem overwrite_metric_unknown_adds_tracking_witness :
    Client._overwrite_metric resolverExperiment { name := "d", impl := 7 } =
      ({ resolverExperiment with tracking_metrics :=
          resolverExperiment.tracking_metrics ++ [{ name := "d", impl := 7 }] },
        true) :=
  overwrite_metric_unknown_adds_tracking resolverExperiment
    { name := "d", impl := 7 } (by decide)

/-! ### Claim theorems: completion evaluation (C1) -/

/-- Metric names depend only on the trial's data. -/
theorem metricNames_congr (t1 t2 : Trial) (h : t2.data = t1.data) :
    t2.metricNames = t1.metricNames := by
  simp [Trial.metricNames, h]

/-- The status-update phase of completion on a RUNNING trial: COMPLETED
with no warning when no objective is configured or nothing required is
missing, FAILED with the missing metric set logged otherwise; the returned
status is the trial's resulting status. -/
theorem complete_trial_finalize_running (c1 : ClientState)
    (exp1 : Experiment) (idx : Nat) (t1 : Trial)
    (hexp : c1.experiment = some exp1) (ht : exp1.trials[idx]? = some t1)
    (hrun : t1.status = TrialStatus.RUNNING) :
    ∃ c2 exp2 t2 warn,
      Client.complete_trial_finalize c1 idx = .ok (c2, t2.status, warn) ∧
      c2.experiment = some exp2 ∧
      exp2.trials[idx]? = some t2 ∧
      t2.data = t1.data ∧
      (exp1.optimization_config = none →
        t2.status = TrialStatus.COMPLETED ∧ warn = none) ∧
      (∀ cfg, exp1.optimization_config = some cfg →
        (cfg.requiredMetricNames.filter
            (fun n => !(t1.metricNames.contains n)) = [] →
          t2.status = TrialStatus.COMPLETED ∧ warn = none) ∧
        (cfg.requiredMetricNames.filter
            (fun n => !(t1.metricNames.contains n)) ≠ [] →
          t2.status = TrialStatus.FAILED ∧
            warn = some (cfg.requiredMetricNames.filter
              (fun n => !(t1.metricNames.contains n))))) := by
  have hlen : idx < exp1.trials.length := by
    rcases List.getElem?_eq_some.mp ht with ⟨hh, _⟩
    exact hh
  have hmc : markCompletedStatus t1.status =
      .ok (TrialStatus.COMPLETED, false) := by
    rw [hrun]
    rfl
  have hmf : markFailedStatus t1.status =
      .ok (TrialStatus.FAILED, false) := by
    rw [hrun]
    rfl
  have hmarkC : exp1.markTrial idx markCompletedStatus =
      .ok ({ exp1 with
        trials := exp1.trials.set idx
          { t1 with status := TrialStatus.COMPLETED } }, false) := by
    simp [Experiment.markTrial, ht, hmc]
  have hmarkF : exp1.markTrial idx markFailedStatus =
      .ok ({ exp1 with
        trials := exp1.trials.set idx
          { t1 with status := TrialStatus.FAILED } }, false) := by
    simp [Experiment.markTrial, ht, hmf]
  have hlookC : (exp1.trials.set idx
      { t1 with status := TrialStatus.COMPLETED })[idx]?
      = some { t1 with status := TrialStatus.COMPLETED } :=
    List.getElem?_set_eq_of_lt _ hlen
  have hlookF : (exp1.trials.set idx
      { t1 with status := TrialStatus.FAILED })[idx]?
      = some { t1 with status := TrialStatus.FAILED } :=
    List.getElem?_set_eq_of_lt _ hlen
  cases hcfg : exp1.optimization_config with
  | none =>
    refine ⟨{ c1 with experiment := some { exp1 with
        trials := exp1.trials.set idx
          { t1 with status := TrialStatus.COMPLETED } } },
      { exp1 with
        trials := exp1.trials.set idx
          { t1 with status := TrialStatus.COMPLETED } },
      { t1 with status := TrialStatus.COMPLETED }, none,
      ?_, rfl, hlookC, rfl, ?_, ?_⟩
    · simp [Client.complete_trial_finalize, hexp, hcfg, hmarkC, hlookC]
    · exact fun _ => ⟨rfl, rfl⟩
    · exact fun cfg hco => nomatch hco
  | some cfg0 =>
    by_cases hm : (cfg0.requiredMetricNames.filter
        (fun n => !(t1.metricNames.contains n))).isEmpty
    · have hm2 : cfg0.requiredMetricNames.filter
          (fun n => !(t1.metricNames.contains n)) = [] :=
        List.isEmpty_iff.mp hm
      refine ⟨{ c1 with experiment := some { exp1 with
          trials := exp1.trials.set idx
            { t1 with status := TrialStatus.COMPLETED } } },
        { exp1 with
          trials := exp1.trials.set idx
            { t1 with status := TrialStatus.COMPLETED } },
        { t1 with status := TrialStatus.COMPLETED }, none,
        ?_, rfl, hlookC, rfl, ?_, ?_⟩
      · unfold Client.complete_trial_finalize
        rw [hexp]
        dsimp only
        rw [hcfg]
        dsimp only
        rw [ht]
        dsimp only
        rw [if_pos hm, hmarkC]
        dsimp only
        rw [hlookC]
        dsimp only
        rw [hcfg]
      · exact fun h => nomatch h
      · intro cfg2 hco
        injection hco with hco2
        subst hco2
        exact ⟨fun _ => ⟨rfl, rfl⟩, fun hne => absurd hm2 hne⟩
    · have hm2 : cfg0.requiredMetricNames.filter
          (fun n => !(t1.metricNames.contains n)) ≠ [] := by
        intro hh
        rw [hh] at hm
        simp at hm
      refine ⟨{ c1 with experiment := some { exp1 with
          trials := exp1.trials.set idx
            { t1 with status := TrialStatus.FAILED } } },
        { exp1 with
          trials := exp1.trials.set idx
            { t1 with status := TrialStatus.FAILED } },
        { t1 with status := TrialStatus.FAILED },
        some (cfg0.requiredMetricNames.filter
          (fun n => !(t1.metricNames.contains n))),
        ?_, rfl, hlookF, rfl, ?_, ?_⟩
      · have hfail : Client.mark_trial_failed c1 idx =
            .ok ({ c1 with experiment := some { exp1 with
              trials := exp1.trials.set idx
                { t1 with status := TrialStatus.FAILED } } }, false) := by
          simp [Client.mark_trial_failed, hexp, hmarkF]
        unfold Client.complete_trial_finalize
        rw [hexp]
        dsimp only
        rw [hcfg]
        dsimp only
        rw [ht]
        dsimp only
        rw [if_neg hm, hfail]
        dsimp only
        rw [hlookF]
        dsimp only
        rw [hcfg]
      · exact fun h => nomatch h
      · intro cfg2 hco
        injection hco with hco2
        subst hco2
        exact ⟨fun hh => absurd hh hm2, fun _ => ⟨rfl, rfl⟩⟩

/-- C1 (amended to trials in RUNNING status): on a configured experiment,
completing a RUNNING trial attaches the optional data and then: with no
optimization objective configured the status becomes COMPLETED; otherwise,
when every required metric name is present in the trial's attached data the
status becomes COMPLETED, and when any required name is missing the status
becomes FAILED and a warning naming the missing set is recorded; the
resulting status is returned. -/
theorem complete_trial_running_spec (c : ClientState) (exp : Experiment)
    (idx : Nat) (raw : Option Outcome) (prog : Option Int) (t : Trial)
    (hexp : c.experiment = some exp) (ht : exp.trials[idx]? = some t)
    (hrun : t.status = TrialStatus.RUNNING) :
    ∃ c2 exp2 t2 warn,
      Client.complete_trial c idx raw prog = .ok (c2, t2.status, warn) ∧
      c2.experiment = some exp2 ∧
      exp2.trials[idx]? = some t2 ∧
      (exp.optimization_config = none →
        t2.status = TrialStatus.COMPLETED ∧ warn = none) ∧
      (∀ cfg, exp.optimization_config = some cfg →
        (cfg.requiredMetricNames.filter
            (fun n => !(t2.metricNames.contains n)) = [] →
          t2.status = TrialStatus.COMPLETED ∧ warn = none) ∧
        (cfg.requiredMetricNames.filter
            (fun n => !(t2.metricNames.contains n)) ≠ [] →
          t2.status = TrialStatus.FAILED ∧
            warn = some (cfg.requiredMetricNames.filter
              (fun n => !(t2.metricNames.contains n))))) := by
  cases raw with
  | none =>
    obtain ⟨c2, exp2, t2, warn, heq, hc2, ht2, hdata, hnone, hsome⟩ :=
      complete_trial_finalize_running c exp idx t hexp ht hrun
    have hmn : t2.metricNames = t.metricNames := metricNames_congr t t2 hdata
    refine ⟨c2, exp2, t2, warn, heq, hc2, ht2, ?_, ?_⟩
    · exact hnone
    · simp only [hmn]
      exact hsome
  | some r =>
    have hlen : idx < exp.trials.length := by
      rcases List.getElem?_eq_some.mp ht with ⟨hh, _⟩
      exact hh
    have hattach : Client.attach_data c idx r prog =
        .ok { c with experiment := some { exp with
          trials := exp.trials.set idx
            { t with data := updateTrialData t.data prog r } } } := by
      simp [Client.attach_data, hexp, ht]
    have hlook1 : (exp.trials.set idx
        { t with data := updateTrialData t.data prog r })[idx]?
        = some { t with data := updateTrialData t.data prog r } :=
      List.getElem?_set_eq_of_lt _ hlen
    obtain ⟨c2, exp2, t2, warn, heq, hc2, ht2, hdata, hnone, hsome⟩ :=
      complete_trial_finalize_running
        { c with experiment := some { exp with
          trials := exp.trials.set idx
            { t with data := updateTrialData t.data prog r } } }
        { exp with
          trials := exp.trials.set idx
            { t with data := updateTrialData t.data prog r } }
        idx { t with data := updateTrialData t.data prog r }
        rfl hlook1 hrun
    have hmn : t2.metricNames =
        ({ t with data := updateTrialData t.data prog r } : Trial).metricNames :=
      metricNames_congr _ t2 hdata
    refine ⟨c2, exp2, t2, warn, ?_, hc2, ht2, ?_, ?_⟩
    · show Client.complete_trial c idx (some r) prog = _
      simp only [Client.complete_trial, hattach]
      exact heq
    · exact hnone
    · simp only [hmn]
      exact hsome

/-- An experiment whose single trial is already COMPLETED while the
configured objective requires metric "A", which was never attached. -/
def completedTrialExperiment : Experiment :=
  { optimization_config := some
      { objective := .single { name := "A", impl := 0 },
        outcome_constraints := [] },
    tracking_metrics := [],
    trials := [{ arm := { name := "0_0", parameters := [] },
                 status := .COMPLETED, data := [] }],
    status_quo := none }

/-- A client holding `completedTrialExperiment`. -/
def completedTrialClient : ClientState :=
  { experiment := some completedTrialExperiment,
    generation_strategy := none, early_stopping_strategy := none }

/-- Counterexample to C1 as stated: trial 0 exists and the objective
requires metric "A", which is missing from the trial's data, yet
`complete_trial` returns COMPLETED, not FAILED — the trial was already
terminal, so the manual-fail path is an idempotent no-op (the warning
naming the missing set is still recorded). -/
theorem complete_trial_terminal_counterexample :
    (Client.complete_trial completedTrialClient 0 none none).toOption.map
        (fun r => (r.2.1, r.2.2))
      = some (TrialStatus.COMPLETED, some ["A"]) ∧
    TrialStatus.COMPLETED ≠ TrialStatus.FAILED := by
  exact ⟨rfl, by decide⟩

/-- An experiment whose single trial is RUNNING while the configured
objective requires metric "A". -/
def runningTrialExperiment : Experiment :=
  { optimization_config := some
      { objective := .single { name := "A", impl := 0 },
        outcome_constraints := [] },
    tracking_metrics := [],
    trials := [{ arm := { name := "0_0", parameters := [] },
                 status := .RUNNING, data := [] }],
    status_quo := none }

/-- A client holding `runningTrialExperiment`. -/
def runningTrialClient : ClientState :=
  { experiment := some runningTrialExperiment,
    generation_strategy := none, early_stopping_strategy := none }

/-- Witness for amended C1: completing the concrete RUNNING trial with
metric "A" attached. -/
theorem complete_trial_running_spec_witness :
    ∃ c2 exp2 t2 warn,
      Client.complete_trial runningTrialClient 0 (some [("A", 3)]) none =
        .ok (c2, t2.status, warn) ∧
      c2.experiment = some exp2 ∧
      exp2.trials[0]? = some t2 ∧
      (runningTrialExperiment.optimization_config = none →
        t2.status = TrialStatus.COMPLETED ∧ warn = none) ∧
      (∀ cfg, runningTrialExperiment.optimization_config = some cfg →
        (cfg.requiredMetricNames.filter
            (fun n => !(t2.metricNames.contains n)) = [] →
          t2.status = TrialStatus.COMPLETED ∧ warn = none) ∧
        (cfg.requiredMetricNames.filter
            (fun n => !(t2.metricNames.contains n)) ≠ [] →
          t2.status = TrialStatus.FAILED ∧
            warn = some (cfg.requiredMetricNames.filter
              (fun n => !(t2.metricNames.contains n))))) :=
  complete_trial_running_spec runningTrialClient runningTrialExperiment 0
    (some [("A", 3)]) none
    { arm := { name := "0_0", parameters := [] },
      status := .RUNNING, data := [] }
    rfl rfl rfl

end Ax
